import Mathlib

/-!
# The SPF check module of rspamd (`src/plugins/spf.c`)

A shallow embedding of the module's three entry points

* `spf_module_config`   (spf.c, lines 75-103),
* `spf_plugin_callback` (spf.c, lines 114-161),
* `spf_symbol_callback` (spf.c, lines 164-172),

followed by the properties established about them.

## Conventions of the embedding

* C `uint32_t` values are natural numbers; every operation that can leave the
  32-bit range is reduced `% 2^32` explicitly.
* `char *` strings are `String`, a `GList *` is a `List`, a list cell whose
  `data` pointer is `NULL` is `none`, a `NULL` record is `none`.
* Functions that the module calls but that live in other translation units
  (`insert_result`, `process_filters`, `resolve_spf`, `msg_info`,
  `register_symbol`, `get_module_opt`) are not interpreted.  Each call is
  appended, with its arguments, to the chronological call log of the `World`.
  Where such a function can change the task fields the module reads
  (`process_filters`, `resolve_spf`) or returns a value the module branches on
  (`resolve_spf`, `get_module_opt`), its behaviour is a parameter.
-/

namespace Rspamd

/-! ## Data model -/

/-- The two functions of the module whose address is handed to other code. -/
inductive FuncId where
  | spf_symbol_callback
  | spf_plugin_callback
  deriving DecidableEq, Repr

/-- A call made to a function outside `spf.c`, with the arguments passed.
The `double` weight argument is always written as the integer literal `1` in
the source and is kept as that integer. -/
inductive Call where
  | insert_result (symbol : String) (flag : Int) (opts : List String)
  | process_filters
  | resolve_spf (callback : FuncId)
  | msg_info (text : String)
  | register_symbol (symbol : String) (weight : Int) (func : FuncId)
  deriving DecidableEq, Repr

/-- Modelled from the spec: `struct worker_task` (header `main.h`, missing),
the Task of the spec, reduced to the fields that `spf.c` reads or writes:
`from_addr.s_addr` (network byte order), `save.saved` (the continuation
latch), `messages` (most recent first, the code prepends) and `message_id`. -/
structure worker_task where
  from_addr : Nat
  saved : Nat
  messages : List String
  message_id : String
  deriving DecidableEq, Repr

/-- Modelled from the spec: the enumeration `spf_mech_t` of the missing header
`spf.h`.  The source names `SPF_FAIL`, `SPF_SOFT_FAIL` and `SPF_NEUTRAL` in
its `switch`; `SPF_PASS` stands for the enumerators that reach `default`. -/
inductive spf_mech where
  | SPF_FAIL
  | SPF_SOFT_FAIL
  | SPF_NEUTRAL
  | SPF_PASS
  deriving DecidableEq, Repr

/-- Modelled from the spec: the fields of `struct spf_addr` (missing header
`spf.h`) that `spf_plugin_callback` reads. `addr` and `mask` are 32-bit. -/
structure spf_addr where
  addr : Nat
  mask : Nat
  mech : spf_mech
  spf_string : String
  deriving DecidableEq, Repr

/-- Modelled from the spec: the field of `struct spf_record` (missing header
`spf.h`) that `spf_plugin_callback` reads: the list `addrs`, from its first
cell (`g_list_first`); a cell with `data == NULL` is `none`. -/
structure spf_record where
  addrs : List (Option spf_addr)
  deriving DecidableEq, Repr

/-- The module context `struct spf_ctx`: the three configured symbol names. -/
structure spf_ctx where
  symbol_fail : String
  symbol_softfail : String
  symbol_allow : String
  deriving DecidableEq, Repr

/-- The task together with the chronological log of external calls. -/
structure World where
  task : worker_task
  calls : List Call
  deriving DecidableEq, Repr

/-- What the C platform leaves open: the host byte order, and the value a
32-bit left shift yields when its count is 32 or more (undefined in C; the
results below hold whatever value is produced). -/
structure Platform where
  little_endian : Bool
  shl_undef : Nat → Nat

/-! ## Constants -/

def DEFAULT_SYMBOL_FAIL : String := "R_SPF_FAIL"
def DEFAULT_SYMBOL_SOFTFAIL : String := "R_SPF_SOFTFAIL"
def DEFAULT_SYMBOL_ALLOW : String := "R_SPF_ALLOW"

def G_MAXUINT32 : Nat := 0xFFFFFFFF
def INADDR_ANY : Nat := 0
def INADDR_NONE : Nat := 0xFFFFFFFF
def TRUE : Int := 1

/-! ## 32-bit arithmetic -/

/-- Reverse the four bytes of a 32-bit word. -/
def bswap32 (x : Nat) : Nat :=
  (x % 256) * 2 ^ 24 + (x / 2 ^ 8 % 256) * 2 ^ 16 + (x / 2 ^ 16 % 256) * 2 ^ 8 + x / 2 ^ 24 % 256

/-- `ntohl`: network to host byte order. -/
def ntohl (plat : Platform) (x : Nat) : Nat :=
  if plat.little_endian then bswap32 x else x % 2 ^ 32

/-- Unsigned 32-bit subtraction `a - b` (wraps around). -/
def sub_u32 (a b : Nat) : Nat := (a % 2 ^ 32 + 2 ^ 32 - b % 2 ^ 32) % 2 ^ 32

/-- Unsigned 32-bit shift `x << n`. -/
def shl_u32 (plat : Platform) (x n : Nat) : Nat :=
  if n < 32 then (x <<< n) % 2 ^ 32 else plat.shl_undef n % 2 ^ 32

/-- The shift count `32 - addr->mask` of line 131. -/
def spf_shift (mask : Nat) : Nat := sub_u32 32 mask

/-- Lines 127-132: the network mask `m` of an entry with mask length `mask`. -/
def spf_mask (plat : Platform) (mask : Nat) : Nat :=
  if mask % 2 ^ 32 = 0 then 0 else shl_u32 plat G_MAXUINT32 (spf_shift mask)

/-- Line 133: the test `(s & m) == (addr->addr & m)`. -/
def spf_match (plat : Platform) (s : Nat) (addr : spf_addr) : Bool :=
  decide (s &&& spf_mask plat addr.mask = addr.addr &&& spf_mask plat addr.mask)

/-! ## `spf_plugin_callback` -/

/-- Lines 134-148: the `switch (addr->mech)` of a matching entry: one
`insert_result` call and one message prepended to `task->messages`. -/
def spf_switch (ctx : spf_ctx) (addr : spf_addr) (w : World) : World :=
  match addr.mech with
  | spf_mech.SPF_FAIL =>
    { task := { w.task with messages := "(SPF): spf fail" :: w.task.messages },
      calls := w.calls ++ [Call.insert_result ctx.symbol_fail 1 [addr.spf_string]] }
  | spf_mech.SPF_SOFT_FAIL =>
    { task := { w.task with messages := "(SPF): spf softfail" :: w.task.messages },
      calls := w.calls ++ [Call.insert_result ctx.symbol_softfail 1 [addr.spf_string]] }
  | spf_mech.SPF_NEUTRAL =>
    { task := { w.task with messages := "(SPF): spf softfail" :: w.task.messages },
      calls := w.calls ++ [Call.insert_result ctx.symbol_softfail 1 [addr.spf_string]] }
  | _ =>
    { task := { w.task with messages := "(SPF): spf allow" :: w.task.messages },
      calls := w.calls ++ [Call.insert_result ctx.symbol_allow 1 [addr.spf_string]] }

/-- Lines 124-154: the `while (cur)` loop over the address list; `s` is the
sender address in host byte order. The loop stops at the first match. -/
def spf_scan (ctx : spf_ctx) (plat : Platform) (s : Nat) : List (Option spf_addr) → World → World
  | [], w => w
  | none :: cur, w => spf_scan ctx plat s cur w
  | some addr :: cur, w =>
    if spf_match plat s addr then spf_switch ctx addr w
    else spf_scan ctx plat s cur w

/-- Lines 121-155: `if (record) { ... }`. -/
def spf_check (ctx : spf_ctx) (plat : Platform) (record : Option spf_record) (w : World) : World :=
  match record with
  | none => w
  | some r => spf_scan ctx plat (ntohl plat w.task.from_addr) r.addrs w

/-- The behaviour of one invocation of the external function
`process_filters`: a program over the task that may read it (`get`), write it
(`put`) and let a further completion of `spf_plugin_callback` fire from
inside (`fire`).  Every deterministic behaviour is of this form. -/
inductive Prog where
  | ret : Prog
  | get (k : worker_task → Prog) : Prog
  | put (t : worker_task) (k : Prog) : Prog
  | fire (record : Option spf_record) (k : Prog) : Prog

/-- Run a `process_filters` behaviour; `cb` is the completion callback that
`fire` invokes. -/
def runProg (cb : Option spf_record → World → Option World) : Prog → World → Option World
  | Prog.ret, w => some w
  | Prog.get k, w => runProg cb (k w.task) w
  | Prog.put t k, w => runProg cb k { w with task := t }
  | Prog.fire r k, w =>
    match cb r w with
    | none => none
    | some w1 => runProg cb k w1

/-- Lines 114-161. `pf` is the behaviour of `process_filters`; the first
argument bounds how deeply invocations of `process_filters` may nest through
completions fired from inside it (`none`: bound exceeded). -/
def spf_plugin_callback (ctx : spf_ctx) (plat : Platform) (pf : Prog) :
    Nat → Option spf_record → World → Option World
  | fuel, record, w =>
    let w1 := spf_check ctx plat record w
    if w1.task.saved = 0 then
      match fuel with
      | 0 => none
      | n + 1 =>
        runProg (spf_plugin_callback ctx plat pf n) pf
          { task := { w1.task with saved := 1 }, calls := w1.calls ++ [Call.process_filters] }
    else some w1

/-- A sequence of completions of `spf_plugin_callback` on one task, one after
the other. -/
def run_completions (ctx : spf_ctx) (plat : Platform) (pf : Prog) (fuel : Nat) :
    List (Option spf_record) → World → Option World
  | [], w => some w
  | r :: rs, w =>
    match spf_plugin_callback ctx plat pf fuel r w with
    | none => none
    | some w1 => run_completions ctx plat pf fuel rs w1

/-- The behaviour never clears the continuation latch: started with
`save.saved` non-zero, every task it writes has `save.saved` non-zero. -/
def Prog.KeepsLatch : Prog → Prop
  | Prog.ret => True
  | Prog.get k => ∀ t : worker_task, t.saved ≠ 0 → (k t).KeepsLatch
  | Prog.put t k => t.saved ≠ 0 ∧ k.KeepsLatch
  | Prog.fire _ k => k.KeepsLatch

/-! ## `spf_symbol_callback` -/

/-- Lines 164-172. `resolve_spf task callback` gives the `gboolean` that the
external `resolve_spf` returns and the task as it leaves it. -/
def spf_symbol_callback (resolve_spf : worker_task → FuncId → Bool × worker_task)
    (w : World) : World :=
  if w.task.from_addr ≠ INADDR_NONE ∧ w.task.from_addr ≠ INADDR_ANY then
    let r := resolve_spf w.task FuncId.spf_plugin_callback
    let w1 : World := { task := r.2, calls := w.calls ++ [Call.resolve_spf FuncId.spf_plugin_callback] }
    if r.1 = false then
      { w1 with calls := w1.calls ++
          [Call.msg_info ("cannot make spf request for [" ++ w1.task.message_id ++ "]")] }
    else w1
  else w

/-! ## `spf_module_config` -/

/-- Modelled from the spec: `struct config_file` (header `cfg_file.h`,
missing) as the module sees it, through `get_module_opt cfg module opt`
(`none` for `NULL`): the per-module option strings of the spec. -/
structure config_file where
  get_module_opt : String → String → Option String

/-- What `spf_module_config` leaves behind: its return value, the module
context, and the calls made. -/
structure ConfigResult where
  res : Int
  ctx : spf_ctx
  calls : List Call
  deriving DecidableEq, Repr

/-- Lines 75-103. `memory_pool_strdup` yields a copy of the string. -/
def spf_module_config (cfg : config_file) (ctx : spf_ctx) : ConfigResult :=
  let res := TRUE
  let ctx1 : spf_ctx :=
    match cfg.get_module_opt "spf" "symbol_fail" with
    | some value => { ctx with symbol_fail := value }
    | none => { ctx with symbol_fail := DEFAULT_SYMBOL_FAIL }
  let ctx2 : spf_ctx :=
    match cfg.get_module_opt "spf" "symbol_softfail" with
    | some value => { ctx1 with symbol_softfail := value }
    | none => { ctx1 with symbol_softfail := DEFAULT_SYMBOL_SOFTFAIL }
  let ctx3 : spf_ctx :=
    match cfg.get_module_opt "spf" "symbol_allow" with
    | some value => { ctx2 with symbol_allow := value }
    | none => { ctx2 with symbol_allow := DEFAULT_SYMBOL_ALLOW }
  { res := res, ctx := ctx3,
    calls := [Call.register_symbol ctx3.symbol_fail 1 FuncId.spf_symbol_callback] }

/-! ## Sample data -/

def sample_ctx : spf_ctx :=
  { symbol_fail := "R_SPF_FAIL", symbol_softfail := "R_SPF_SOFTFAIL", symbol_allow := "R_SPF_ALLOW" }

def sample_plat : Platform := { little_endian := true, shl_undef := fun _ => 0 }

/-- A task from 192.0.2.1 (0x010200C0 as stored, network order on a
little-endian host), latch unset. -/
def sample_task : worker_task :=
  { from_addr := 0x010200C0, saved := 0, messages := [], message_id := "id1" }

/-- Entries that do not match 192.0.2.1: a null cell and 10.0.0.0/8 (pass). -/
def sample_pre : List (Option spf_addr) :=
  [none, some { addr := 0x0A000000, mask := 8, mech := spf_mech.SPF_PASS,
                spf_string := "ip4:10.0.0.0/8" }]

/-- The entry 192.0.2.0/24 with mechanism fail. -/
def sample_hit : spf_addr :=
  { addr := 0xC0000200, mask := 24, mech := spf_mech.SPF_FAIL, spf_string := "-ip4:192.0.2.0/24" }

/-- The entry 0.0.0.0/0 with mechanism softfail; it matches every address. -/
def sample_post : List (Option spf_addr) :=
  [some { addr := 0, mask := 0, mech := spf_mech.SPF_SOFT_FAIL, spf_string := "~all" }]

/-- A record: null cell, 10.0.0.0/8 pass, 192.0.2.0/24 fail, 0.0.0.0/0 softfail. -/
def sample_record : spf_record :=
  { addrs := sample_pre ++ some sample_hit :: sample_post }

/-- A `process_filters` behaviour: a completion fires from inside, then a
message is added to the task. -/
def sample_pf : Prog :=
  Prog.fire (some sample_record)
    (Prog.get fun t => Prog.put { t with messages := "other filter" :: t.messages } Prog.ret)

/-- A `resolve_spf` that cannot make the request and leaves the task alone. -/
def sample_resolve_fails : worker_task → FuncId → Bool × worker_task :=
  fun t _ => (false, t)

/-- A `resolve_spf` that cannot make the request, but has by then set
`save.saved` and added a message to the task. -/
def sample_resolve_fails_dirty : worker_task → FuncId → Bool × worker_task :=
  fun t _ => (false, { t with saved := 1, messages := "spf: no sender domain" :: t.messages })

/-- A `process_filters` behaviour that clears `save.saved` before it returns. -/
def sample_pf_clears : Prog :=
  Prog.get fun t => Prog.put { t with saved := 0 } Prog.ret

/-! ## Statement vocabulary -/

/-- One invocation of `spf_plugin_callback` on `w` makes, by itself, exactly
the calls `ins` and prepends exactly `msgs` to `task->messages` before it
reaches the continuation guard of lines 156-160: with the latch set it
returns at once in that state; with the latch unset it sets the latch, calls
`process_filters` in that state, and returns what `process_filters` returns. -/
def Performs (ctx : spf_ctx) (plat : Platform) (pf : Prog) (record : Option spf_record)
    (w : World) (ins : List Call) (msgs : List String) : Prop :=
  (w.task.saved ≠ 0 → ∀ fuel : Nat,
    spf_plugin_callback ctx plat pf fuel record w =
      some { task := { w.task with messages := msgs ++ w.task.messages },
             calls := w.calls ++ ins }) ∧
  (w.task.saved = 0 → ∀ fuel : Nat,
    spf_plugin_callback ctx plat pf (fuel + 1) record w =
      runProg (spf_plugin_callback ctx plat pf fuel) pf
        { task := { w.task with messages := msgs ++ w.task.messages, saved := 1 },
          calls := w.calls ++ ins ++ [Call.process_filters] })

/-- No non-null entry of the list matches the sender address `s`. -/
def NoMatch (plat : Platform) (s : Nat) (l : List (Option spf_addr)) : Prop :=
  ∀ b : spf_addr, some b ∈ l → spf_match plat s b = false

/-! ## Auxiliary lemmas -/

theorem spf_switch_task (ctx : spf_ctx) (a : spf_addr) :
    ∃ msg sym, ∀ w : World, spf_switch ctx a w =
      { task := { w.task with messages := msg :: w.task.messages },
        calls := w.calls ++ [Call.insert_result sym 1 [a.spf_string]] } := by
  unfold spf_switch
  cases a.mech <;> exact ⟨_, _, fun _ => rfl⟩

theorem spf_scan_nomatch (ctx : spf_ctx) (plat : Platform) (s : Nat)
    (l : List (Option spf_addr)) (w : World) (h : NoMatch plat s l) :
    spf_scan ctx plat s l w = w := by
  induction l with
  | nil => rfl
  | cons x xs ih =>
    have hxs : NoMatch plat s xs := fun b hb => h b (List.mem_cons_of_mem _ hb)
    cases x with
    | none => simpa [spf_scan] using ih hxs
    | some b =>
      have hb : spf_match plat s b = false := h b (List.mem_cons_self _ _)
      simpa [spf_scan, hb] using ih hxs

theorem spf_scan_first (ctx : spf_ctx) (plat : Platform) (s : Nat)
    (pre post : List (Option spf_addr)) (a : spf_addr) (w : World)
    (hpre : NoMatch plat s pre) (ha : spf_match plat s a = true) :
    spf_scan ctx plat s (pre ++ some a :: post) w = spf_switch ctx a w := by
  induction pre with
  | nil => simp [spf_scan, ha]
  | cons x xs ih =>
    have hxs : NoMatch plat s xs := fun b hb => hpre b (List.mem_cons_of_mem _ hb)
    cases x with
    | none => simpa [spf_scan] using ih hxs
    | some b =>
      have hb : spf_match plat s b = false := hpre b (List.mem_cons_self _ _)
      simpa [spf_scan, hb] using ih hxs

/-- The loop adds at most one `insert_result` call and at most one message,
and touches nothing else; what it adds depends on the list and the sender
address only. -/
theorem spf_scan_shape (ctx : spf_ctx) (plat : Platform) (s : Nat)
    (l : List (Option spf_addr)) :
    ∃ ins msgs, (∀ w : World, spf_scan ctx plat s l w =
        { task := { w.task with messages := msgs ++ w.task.messages },
          calls := w.calls ++ ins }) ∧
      ins.length ≤ 1 ∧ msgs.length ≤ 1 ∧
      ∀ c ∈ ins, ∃ sym opts, c = Call.insert_result sym 1 opts := by
  induction l with
  | nil => exact ⟨[], [], by simp [spf_scan], by simp, by simp, by simp⟩
  | cons x xs ih =>
    cases x with
    | none => simpa [spf_scan] using ih
    | some b =>
      by_cases hb : spf_match plat s b = true
      · obtain ⟨msg, sym, h⟩ := spf_switch_task ctx b
        refine ⟨[Call.insert_result sym 1 [b.spf_string]], [msg], ?_, by simp, by simp, ?_⟩
        · intro w
          simp [spf_scan, hb, h]
        · intro c hc
          simp at hc
          exact ⟨sym, [b.spf_string], hc⟩
      · simpa [spf_scan, hb] using ih

/-- The check phase (lines 121-155) adds at most one `insert_result` call and
at most one message; what it adds depends on the record and the sender
address only. -/
theorem spf_check_uniform (ctx : spf_ctx) (plat : Platform) (record : Option spf_record)
    (from_addr : Nat) :
    ∃ ins msgs, (∀ w : World, w.task.from_addr = from_addr →
        spf_check ctx plat record w =
          { task := { w.task with messages := msgs ++ w.task.messages },
            calls := w.calls ++ ins }) ∧
      ins.length ≤ 1 ∧ msgs.length ≤ 1 ∧
      ∀ c ∈ ins, ∃ sym opts, c = Call.insert_result sym 1 opts := by
  cases record with
  | none => exact ⟨[], [], by simp [spf_check], by simp, by simp, by simp⟩
  | some r =>
    obtain ⟨ins, msgs, h, h1, h2, h3⟩ := spf_scan_shape ctx plat (ntohl plat from_addr) r.addrs
    refine ⟨ins, msgs, ?_, h1, h2, h3⟩
    intro w hw
    subst hw
    exact h w

theorem spf_check_shape (ctx : spf_ctx) (plat : Platform) (record : Option spf_record)
    (w : World) :
    ∃ ins msgs, spf_check ctx plat record w =
        { task := { w.task with messages := msgs ++ w.task.messages },
          calls := w.calls ++ ins } ∧
      ins.length ≤ 1 ∧ msgs.length ≤ 1 ∧
      ∀ c ∈ ins, ∃ sym opts, c = Call.insert_result sym 1 opts := by
  obtain ⟨ins, msgs, h, h1, h2, h3⟩ := spf_check_uniform ctx plat record w.task.from_addr
  exact ⟨ins, msgs, h w rfl, h1, h2, h3⟩

theorem callback_latch_set (ctx : spf_ctx) (plat : Platform) (pf : Prog) (fuel : Nat)
    (record : Option spf_record) (w : World)
    (h : (spf_check ctx plat record w).task.saved ≠ 0) :
    spf_plugin_callback ctx plat pf fuel record w = some (spf_check ctx plat record w) := by
  unfold spf_plugin_callback
  simp [h]

theorem callback_latch_unset (ctx : spf_ctx) (plat : Platform) (pf : Prog) (fuel : Nat)
    (record : Option spf_record) (w : World)
    (h : (spf_check ctx plat record w).task.saved = 0) :
    spf_plugin_callback ctx plat pf (fuel + 1) record w =
      runProg (spf_plugin_callback ctx plat pf fuel) pf
        { task := { (spf_check ctx plat record w).task with saved := 1 },
          calls := (spf_check ctx plat record w).calls ++ [Call.process_filters] } := by
  conv => lhs; unfold spf_plugin_callback
  simp [h]

/-- Whatever the check phase did is what the invocation performs. -/
theorem performs_of_check (ctx : spf_ctx) (plat : Platform) (pf : Prog)
    (record : Option spf_record) (w : World) (ins : List Call) (msgs : List String)
    (h : spf_check ctx plat record w =
      { task := { w.task with messages := msgs ++ w.task.messages }, calls := w.calls ++ ins }) :
    Performs ctx plat pf record w ins msgs := by
  constructor
  · intro hs fuel
    rw [callback_latch_set ctx plat pf fuel record w (by rw [h]; exact hs), h]
  · intro hs fuel
    rw [callback_latch_unset ctx plat pf fuel record w (by rw [h]; exact hs), h]

theorem spf_check_saved (ctx : spf_ctx) (plat : Platform) (record : Option spf_record)
    (w : World) : (spf_check ctx plat record w).task.saved = w.task.saved := by
  obtain ⟨ins, msgs, h, -⟩ := spf_check_shape ctx plat record w
  rw [h]

/-- A completion on a task whose latch is set returns, keeps the latch set and
calls `process_filters` not at all. -/
theorem callback_set_summary (ctx : spf_ctx) (plat : Platform) (pf : Prog) (fuel : Nat)
    (record : Option spf_record) (w : World) (hw : w.task.saved ≠ 0) :
    ∃ w1 l, spf_plugin_callback ctx plat pf fuel record w = some w1 ∧
      w1.task.saved ≠ 0 ∧ w1.calls = w.calls ++ l ∧ Call.process_filters ∉ l := by
  obtain ⟨ins, msgs, h, -, -, hins⟩ := spf_check_shape ctx plat record w
  refine ⟨spf_check ctx plat record w, ins, ?_, ?_, ?_, ?_⟩
  · exact callback_latch_set ctx plat pf fuel record w (by rw [spf_check_saved]; exact hw)
  · rw [spf_check_saved]; exact hw
  · rw [h]
  · intro hc
    obtain ⟨sym, opts, hEq⟩ := hins _ hc
    cases hEq

/-- A `process_filters` behaviour that keeps the latch, entered with the latch
set, returns with the latch set and without a further `process_filters` call,
whatever completions fire from inside it. -/
theorem runProg_keeps (ctx : spf_ctx) (plat : Platform) (pf : Prog) (n : Nat) (p : Prog) :
    p.KeepsLatch → ∀ w : World, w.task.saved ≠ 0 →
      ∃ w1 l, runProg (spf_plugin_callback ctx plat pf n) p w = some w1 ∧
        w1.task.saved ≠ 0 ∧ w1.calls = w.calls ++ l ∧ Call.process_filters ∉ l := by
  induction p with
  | ret =>
    intro _ w hw
    exact ⟨w, [], rfl, hw, by simp, by simp⟩
  | get k ih =>
    intro hp w hw
    simpa [runProg] using ih w.task (hp w.task hw) w hw
  | put t k ih =>
    intro hp w _
    simpa [runProg] using ih hp.2 { w with task := t } hp.1
  | fire r k ih =>
    intro hp w hw
    obtain ⟨w1, l1, h1, hs1, hc1, hn1⟩ := callback_set_summary ctx plat pf n r w hw
    obtain ⟨w2, l2, h2, hs2, hc2, hn2⟩ := ih hp w1 hs1
    refine ⟨w2, l1 ++ l2, ?_, hs2, ?_, ?_⟩
    · simp [runProg, h1, h2]
    · rw [hc2, hc1, List.append_assoc]
    · simp [hn1, hn2]

/-- A sequence of completions on a task whose latch is set returns, keeps the
latch set and calls `process_filters` not at all. -/
theorem run_completions_set (ctx : spf_ctx) (plat : Platform) (pf : Prog) (fuel : Nat)
    (rs : List (Option spf_record)) :
    ∀ w : World, w.task.saved ≠ 0 →
      ∃ w1 l, run_completions ctx plat pf fuel rs w = some w1 ∧
        w1.task.saved ≠ 0 ∧ w1.calls = w.calls ++ l ∧ Call.process_filters ∉ l := by
  induction rs with
  | nil =>
    intro w hw
    exact ⟨w, [], rfl, hw, by simp, by simp⟩
  | cons r rs ih =>
    intro w hw
    obtain ⟨w1, l1, h1, hs1, hc1, hn1⟩ := callback_set_summary ctx plat pf fuel r w hw
    obtain ⟨w2, l2, h2, hs2, hc2, hn2⟩ := ih w1 hs1
    refine ⟨w2, l1 ++ l2, ?_, hs2, ?_, ?_⟩
    · simp [run_completions, h1, h2]
    · rw [hc2, hc1, List.append_assoc]
    · simp [hn1, hn2]

/-- A completion on a task whose latch is unset, with a `process_filters` that
keeps the latch: it returns, the latch is set, and `process_filters` was
called exactly once, after the completion's own insertion. -/
theorem callback_unset_summary (ctx : spf_ctx) (plat : Platform) (pf : Prog)
    (hpf : pf.KeepsLatch) (fuel : Nat) (record : Option spf_record) (w : World)
    (hw : w.task.saved = 0) :
    ∃ w1 ins rest, spf_plugin_callback ctx plat pf (fuel + 1) record w = some w1 ∧
      w1.task.saved ≠ 0 ∧ w1.calls = w.calls ++ ins ++ Call.process_filters :: rest ∧
      Call.process_filters ∉ ins ∧ Call.process_filters ∉ rest := by
  obtain ⟨ins, msgs, h, -, -, hins⟩ := spf_check_shape ctx plat record w
  have hrun := callback_latch_unset ctx plat pf fuel record w (by rw [spf_check_saved]; exact hw)
  obtain ⟨w1, l, h1, hs1, hc1, hn1⟩ := runProg_keeps ctx plat pf fuel pf hpf
    { task := { (spf_check ctx plat record w).task with saved := 1 },
      calls := (spf_check ctx plat record w).calls ++ [Call.process_filters] } (by simp)
  refine ⟨w1, ins, l, by rw [hrun, h1], hs1, ?_, ?_, hn1⟩
  · rw [hc1, h]; simp
  · intro hc
    obtain ⟨sym, opts, hEq⟩ := hins _ hc
    cases hEq

theorem sample_pf_keeps : sample_pf.KeepsLatch := by
  intro t ht
  exact ⟨ht, trivial⟩

/-! ## Continuation guard -/

/-- C1 (exactly-once continuation). Take a task whose latch `save.saved` is
unset, a `process_filters` that never clears the latch, and any sequence
`r :: rs` of completions of `spf_plugin_callback` on the task; further
completions may fire from inside `process_filters`. Then every completion
returns, and the call log grows by `ins ++ process_filters :: rest` during
the first completion and by `later` during all the others, where
`process_filters` occurs neither in `ins` (the first completion's own
insertion) nor in `rest` (what happens inside `process_filters`, re-entrant
completions included) nor in `later`: it is invoked exactly once, by the
first completion. -/
theorem exactly_once_continuation (ctx : spf_ctx) (plat : Platform) (pf : Prog)
    (hpf : pf.KeepsLatch) (t : worker_task) (ht : t.saved = 0) (log : List Call)
    (r : Option spf_record) (rs : List (Option spf_record)) (fuel : Nat) (hfuel : 1 ≤ fuel) :
    ∃ w1 wN ins rest later,
      spf_plugin_callback ctx plat pf fuel r { task := t, calls := log } = some w1 ∧
      run_completions ctx plat pf fuel rs w1 = some wN ∧
      run_completions ctx plat pf fuel (r :: rs) { task := t, calls := log } = some wN ∧
      w1.calls = log ++ ins ++ Call.process_filters :: rest ∧
      wN.calls = w1.calls ++ later ∧
      Call.process_filters ∉ ins ∧ Call.process_filters ∉ rest ∧
      Call.process_filters ∉ later ∧
      wN.calls.count Call.process_filters = log.count Call.process_filters + 1 ∧
      wN.task.saved ≠ 0 := by
  obtain ⟨n, rfl⟩ : ∃ n, fuel = n + 1 := ⟨fuel - 1, by omega⟩
  obtain ⟨w1, ins, rest, h1, hs1, hc1, hn1, hn2⟩ :=
    callback_unset_summary ctx plat pf hpf n r { task := t, calls := log } ht
  obtain ⟨wN, later, h2, hs2, hc2, hn3⟩ := run_completions_set ctx plat pf (n + 1) rs w1 hs1
  refine ⟨w1, wN, ins, rest, later, h1, h2, ?_, hc1, hc2, hn1, hn2, hn3, ?_, hs2⟩
  · simp [run_completions, h1, h2]
  · rw [hc2, hc1]
    simp [List.count_eq_zero_of_not_mem hn1, List.count_eq_zero_of_not_mem hn2,
      List.count_eq_zero_of_not_mem hn3]

/-- C1 at a concrete input: three completions on the sample task, the first
of which lets a fourth fire from inside `process_filters`. -/
theorem exactly_once_continuation_witness :
    sample_pf.KeepsLatch ∧ sample_task.saved = 0 ∧ 1 ≤ 1 ∧
    ∃ w1 wN ins rest later,
      spf_plugin_callback sample_ctx sample_plat sample_pf 1 (some sample_record)
        { task := sample_task, calls := [] } = some w1 ∧
      run_completions sample_ctx sample_plat sample_pf 1 [none, some sample_record] w1
        = some wN ∧
      run_completions sample_ctx sample_plat sample_pf 1
        (some sample_record :: [none, some sample_record])
        { task := sample_task, calls := [] } = some wN ∧
      w1.calls = [] ++ ins ++ Call.process_filters :: rest ∧
      wN.calls = w1.calls ++ later ∧
      Call.process_filters ∉ ins ∧ Call.process_filters ∉ rest ∧
      Call.process_filters ∉ later ∧
      wN.calls.count Call.process_filters = ([] : List Call).count Call.process_filters + 1 ∧
      wN.task.saved ≠ 0 :=
  ⟨sample_pf_keeps, rfl, Nat.le_refl 1,
    exactly_once_continuation sample_ctx sample_plat sample_pf sample_pf_keeps sample_task rfl []
      (some sample_record) [none, some sample_record] 1 (Nat.le_refl 1)⟩

/-- C2 (late insertion). For a task whose latch is set and any record (null
or not) there are calls `ins` and messages `msgs` such that the completion
returns the task with `msgs` prepended to `task->messages`, the latch as it
was (set) and the log extended by exactly `ins`, which holds `insert_result`
calls only (no `process_filters`); and on the same task with the latch unset
the completion performs the same `ins` and `msgs` before it sets the latch
and calls `process_filters`. -/
theorem late_insertion_accepted (ctx : spf_ctx) (plat : Platform) (pf : Prog)
    (t : worker_task) (ht : t.saved ≠ 0) (log : List Call) (record : Option spf_record) :
    ∃ ins msgs,
      (∀ fuel : Nat, spf_plugin_callback ctx plat pf fuel record { task := t, calls := log } =
        some { task := { t with messages := msgs ++ t.messages }, calls := log ++ ins }) ∧
      ({ t with messages := msgs ++ t.messages } : worker_task).saved = t.saved ∧
      Call.process_filters ∉ ins ∧
      (∀ c ∈ ins, ∃ sym opts, c = Call.insert_result sym 1 opts) ∧
      Performs ctx plat pf record { task := { t with saved := 0 }, calls := log } ins msgs := by
  obtain ⟨ins, msgs, h, -, -, hins⟩ := spf_check_uniform ctx plat record t.from_addr
  refine ⟨ins, msgs, ?_, rfl, ?_, hins, ?_⟩
  · intro fuel
    exact (performs_of_check ctx plat pf record { task := t, calls := log } ins msgs
      (h _ rfl)).1 ht fuel
  · intro hc
    obtain ⟨sym, opts, hEq⟩ := hins _ hc
    cases hEq
  · exact performs_of_check ctx plat pf record _ ins msgs (h _ rfl)

/-- C2 at a concrete input: the sample task with the latch set. -/
theorem late_insertion_accepted_witness :
    ({ sample_task with saved := 1 } : worker_task).saved ≠ 0 ∧
    ∃ ins msgs,
      (∀ fuel : Nat, spf_plugin_callback sample_ctx sample_plat sample_pf fuel
          (some sample_record) { task := { sample_task with saved := 1 }, calls := [] } =
        some { task := { { sample_task with saved := 1 } with
                 messages := msgs ++ ({ sample_task with saved := 1 } : worker_task).messages },
               calls := [] ++ ins }) ∧
      ({ { sample_task with saved := 1 } with
          messages := msgs ++ ({ sample_task with saved := 1 } : worker_task).messages }
          : worker_task).saved = ({ sample_task with saved := 1 } : worker_task).saved ∧
      Call.process_filters ∉ ins ∧
      (∀ c ∈ ins, ∃ sym opts, c = Call.insert_result sym 1 opts) ∧
      Performs sample_ctx sample_plat sample_pf (some sample_record)
        { task := { { sample_task with saved := 1 } with saved := 0 }, calls := [] } ins msgs :=
  ⟨by decide,
    late_insertion_accepted sample_ctx sample_plat sample_pf { sample_task with saved := 1 }
      (by decide) [] (some sample_record)⟩

/-- C3 as stated fails: on the sample task (latch unset) a completion with a
null record sets the latch and calls `process_filters`; when that call clears
`save.saved`, the completion returns with the latch unset. -/
theorem failure_completion_latch_counterexample :
    sample_task.saved = 0 ∧
    spf_plugin_callback sample_ctx sample_plat sample_pf_clears 1 none
        { task := sample_task, calls := [] } =
      some { task := { from_addr := 0x010200C0, saved := 0, messages := [],
                       message_id := "id1" },
             calls := [Call.process_filters] } := by
  constructor
  · rfl
  · rfl

/-- C3, amended (failure completion). A completion with a null record
performs by itself no `insert_result` call and prepends nothing to
`task->messages`. If the latch was set on entry it returns the world
untouched (latch still set, no `process_filters`). If the latch was unset it
sets the latch and calls `process_filters` in that state. Provided
`process_filters` does not clear the latch, the completion returns with the
latch set and the number of `process_filters` calls has grown by one if the
latch was unset on entry and by none otherwise. -/
theorem failure_completion_guard (ctx : spf_ctx) (plat : Platform) (pf : Prog) (w : World) :
    Performs ctx plat pf none w [] [] ∧
    (w.task.saved ≠ 0 → ∀ fuel : Nat, spf_plugin_callback ctx plat pf fuel none w = some w) ∧
    (w.task.saved = 0 → ∀ fuel : Nat, spf_plugin_callback ctx plat pf (fuel + 1) none w =
      runProg (spf_plugin_callback ctx plat pf fuel) pf
        { task := { w.task with saved := 1 }, calls := w.calls ++ [Call.process_filters] }) ∧
    (pf.KeepsLatch → ∀ fuel : Nat, ∃ w1,
      spf_plugin_callback ctx plat pf (fuel + 1) none w = some w1 ∧ w1.task.saved ≠ 0 ∧
      w1.calls.count Call.process_filters =
        w.calls.count Call.process_filters + (if w.task.saved = 0 then 1 else 0)) := by
  have hP : Performs ctx plat pf none w [] [] :=
    performs_of_check ctx plat pf none w [] [] (by simp [spf_check])
  refine ⟨hP, ?_, ?_, ?_⟩
  · intro hs fuel
    simpa using hP.1 hs fuel
  · intro hs fuel
    simpa using hP.2 hs fuel
  · intro hpf fuel
    by_cases hs : w.task.saved = 0
    · obtain ⟨w1, ins, rest, h1, hs1, hc1, hn1, hn2⟩ :=
        callback_unset_summary ctx plat pf hpf fuel none w hs
      refine ⟨w1, h1, hs1, ?_⟩
      rw [hc1]
      simp [hs, List.count_eq_zero_of_not_mem hn1, List.count_eq_zero_of_not_mem hn2]
    · obtain ⟨w1, l, h1, hs1, hc1, hn1⟩ :=
        callback_set_summary ctx plat pf (fuel + 1) none w hs
      refine ⟨w1, h1, hs1, ?_⟩
      rw [hc1]
      simp [hs, List.count_eq_zero_of_not_mem hn1]

/-- C3 at a concrete input: a failed lookup completes on the sample task
(latch unset) and `process_filters` runs once. -/
theorem failure_completion_guard_witness :
    sample_pf.KeepsLatch ∧ sample_task.saved = 0 ∧
    ∃ w1, spf_plugin_callback sample_ctx sample_plat sample_pf (0 + 1) none
        { task := sample_task, calls := [] } = some w1 ∧ w1.task.saved ≠ 0 ∧
      w1.calls.count Call.process_filters =
        ([] : List Call).count Call.process_filters +
          (if sample_task.saved = 0 then 1 else 0) :=
  ⟨sample_pf_keeps, rfl,
    (failure_completion_guard sample_ctx sample_plat sample_pf
      { task := sample_task, calls := [] }).2.2.2 sample_pf_keeps 0⟩

/-! ## Outcome of one completion -/

theorem sample_nomatch :
    NoMatch sample_plat (ntohl sample_plat sample_task.from_addr)
      sample_pre := by
  intro b hb
  simp [sample_pre] at hb
  subst hb
  decide

/-- C6 (outcome-to-symbol mapping). Let `a` be the first non-null entry of
the record that matches the sender address. If `a->mech` is `SPF_FAIL` the
completion performs exactly `insert_result (symbol_fail, 1, [a->spf_string])`;
if it is `SPF_SOFT_FAIL` or `SPF_NEUTRAL`, exactly
`insert_result (symbol_softfail, 1, [a->spf_string])`; for every other
mechanism, exactly `insert_result (symbol_allow, 1, [a->spf_string])`. The
weight is 1 and the option list has the one element `a->spf_string` in all
three cases. -/
theorem outcome_to_symbol (ctx : spf_ctx) (plat : Platform) (pf : Prog) (w : World)
    (pre post : List (Option spf_addr)) (a : spf_addr)
    (hpre : NoMatch plat (ntohl plat w.task.from_addr) pre)
    (ha : spf_match plat (ntohl plat w.task.from_addr) a = true) :
    (a.mech = spf_mech.SPF_FAIL →
      Performs ctx plat pf (some { addrs := pre ++ some a :: post }) w
        [Call.insert_result ctx.symbol_fail 1 [a.spf_string]] ["(SPF): spf fail"]) ∧
    (a.mech = spf_mech.SPF_SOFT_FAIL ∨ a.mech = spf_mech.SPF_NEUTRAL →
      Performs ctx plat pf (some { addrs := pre ++ some a :: post }) w
        [Call.insert_result ctx.symbol_softfail 1 [a.spf_string]] ["(SPF): spf softfail"]) ∧
    (a.mech ≠ spf_mech.SPF_FAIL ∧ a.mech ≠ spf_mech.SPF_SOFT_FAIL ∧
        a.mech ≠ spf_mech.SPF_NEUTRAL →
      Performs ctx plat pf (some { addrs := pre ++ some a :: post }) w
        [Call.insert_result ctx.symbol_allow 1 [a.spf_string]] ["(SPF): spf allow"]) := by
  have hscan : spf_check ctx plat (some { addrs := pre ++ some a :: post }) w =
      spf_switch ctx a w := by
    simp only [spf_check]
    exact spf_scan_first ctx plat _ pre post a w hpre ha
  refine ⟨?_, ?_, ?_⟩
  · intro hm
    apply performs_of_check
    rw [hscan]
    simp [spf_switch, hm]
  · intro hm
    apply performs_of_check
    rw [hscan]
    rcases hm with hm | hm <;> simp [spf_switch, hm]
  · intro hm
    apply performs_of_check
    rw [hscan]
    obtain ⟨h1, h2, h3⟩ := hm
    cases hmech : a.mech <;> simp_all [spf_switch]

/-- C6 at a concrete input: for the sample task the first matching entry of
the sample record is 192.0.2.0/24 with mechanism `SPF_FAIL`. -/
theorem outcome_to_symbol_witness :
    NoMatch sample_plat (ntohl sample_plat sample_task.from_addr) sample_pre ∧
    spf_match sample_plat (ntohl sample_plat sample_task.from_addr) sample_hit = true ∧
    sample_hit.mech = spf_mech.SPF_FAIL ∧
    Performs sample_ctx sample_plat sample_pf (some sample_record)
      { task := sample_task, calls := [] }
      [Call.insert_result "R_SPF_FAIL" 1 ["-ip4:192.0.2.0/24"]] ["(SPF): spf fail"] :=
  ⟨sample_nomatch, by decide, rfl,
    (outcome_to_symbol sample_ctx sample_plat sample_pf { task := sample_task, calls := [] }
      sample_pre sample_post sample_hit sample_nomatch (by decide)).1 rfl⟩

/-- C8 (first match wins, at most one contribution). (1) Whatever the record
and the task, one completion performs at most one call, an `insert_result`,
and prepends at most one message to `task->messages`. (2) If the entries
before `a` are null or do not match the sender address and `a` matches, the
completion performs what it performs on the record holding `a` alone, namely
one `insert_result` and one message: the entries after `a` play no part.
(3) If no non-null entry matches, it performs no call and leaves
`task->messages` as it was. -/
theorem first_match_wins (ctx : spf_ctx) (plat : Platform) (pf : Prog) (w : World) :
    (∀ record : Option spf_record, ∃ ins msgs,
      Performs ctx plat pf record w ins msgs ∧ ins.length ≤ 1 ∧ msgs.length ≤ 1 ∧
      ∀ c ∈ ins, ∃ sym opts, c = Call.insert_result sym 1 opts) ∧
    (∀ (pre post : List (Option spf_addr)) (a : spf_addr),
      NoMatch plat (ntohl plat w.task.from_addr) pre →
      spf_match plat (ntohl plat w.task.from_addr) a = true →
      ∃ sym msg,
        Performs ctx plat pf (some { addrs := pre ++ some a :: post }) w
          [Call.insert_result sym 1 [a.spf_string]] [msg] ∧
        Performs ctx plat pf (some { addrs := [some a] }) w
          [Call.insert_result sym 1 [a.spf_string]] [msg]) ∧
    (∀ addrs : List (Option spf_addr),
      NoMatch plat (ntohl plat w.task.from_addr) addrs →
      Performs ctx plat pf (some { addrs := addrs }) w [] []) := by
  refine ⟨?_, ?_, ?_⟩
  · intro record
    obtain ⟨ins, msgs, h, h1, h2, h3⟩ := spf_check_shape ctx plat record w
    exact ⟨ins, msgs, performs_of_check ctx plat pf record w ins msgs h, h1, h2, h3⟩
  · intro pre post a hpre ha
    obtain ⟨msg, sym, h⟩ := spf_switch_task ctx a
    refine ⟨sym, msg, ?_, ?_⟩
    · apply performs_of_check
      simp only [spf_check]
      rw [spf_scan_first ctx plat _ pre post a w hpre ha, h w]
      simp
    · apply performs_of_check
      simp only [spf_check]
      have := spf_scan_first ctx plat (ntohl plat w.task.from_addr) [] [] a w
        (fun b hb => by simp at hb) ha
      simp only [List.nil_append] at this
      rw [this, h w]
      simp
  · intro addrs hno
    apply performs_of_check
    simp only [spf_check]
    rw [spf_scan_nomatch ctx plat _ addrs w hno]
    simp

/-- C8 at a concrete input: in the sample record the entry after the first
match also matches (0.0.0.0/0, softfail) and is ignored. -/
theorem first_match_wins_witness :
    NoMatch sample_plat (ntohl sample_plat sample_task.from_addr) sample_pre ∧
    spf_match sample_plat (ntohl sample_plat sample_task.from_addr) sample_hit = true ∧
    ∃ sym msg,
      Performs sample_ctx sample_plat sample_pf (some sample_record)
        { task := sample_task, calls := [] }
        [Call.insert_result sym 1 ["-ip4:192.0.2.0/24"]] [msg] ∧
      Performs sample_ctx sample_plat sample_pf (some { addrs := [some sample_hit] })
        { task := sample_task, calls := [] }
        [Call.insert_result sym 1 ["-ip4:192.0.2.0/24"]] [msg] :=
  ⟨sample_nomatch, by decide,
    (first_match_wins sample_ctx sample_plat sample_pf
      { task := sample_task, calls := [] }).2.1
      sample_pre sample_post sample_hit sample_nomatch (by decide)⟩

/-! ## `spf_symbol_callback` -/

/-- C4 as stated fails: on the sample task (usable sender address) with a
`resolve_spf` that returns FALSE after it has set `save.saved` and added a
message, `spf_symbol_callback` returns a task whose latch and message log
differ from those on entry. -/
theorem filter_failure_task_counterexample :
    sample_task.from_addr ≠ INADDR_NONE ∧ sample_task.from_addr ≠ INADDR_ANY ∧
    (sample_resolve_fails_dirty sample_task FuncId.spf_plugin_callback).1 = false ∧
    (spf_symbol_callback sample_resolve_fails_dirty
        { task := sample_task, calls := [] }).task.saved ≠ sample_task.saved ∧
    (spf_symbol_callback sample_resolve_fails_dirty
        { task := sample_task, calls := [] }).task.messages ≠ sample_task.messages ∧
    (spf_symbol_callback sample_resolve_fails_dirty
        { task := sample_task, calls := [] }).task ≠ sample_task := by
  refine ⟨by decide, by decide, rfl, by decide, by decide, by decide⟩

/-- C4, amended (a filter that cannot start its lookup). For a task with a
usable sender address for which `resolve_spf` returns FALSE,
`spf_symbol_callback` returns; the calls it makes itself are the
`resolve_spf` call and one `msg_info` log line (no `insert_result`, no
`process_filters`), and it hands back the task exactly as `resolve_spf` left
it: the latch, the message log and every other field are unchanged whenever
the failing `resolve_spf` did not change them. -/
theorem filter_failure_contributes_nothing
    (resolve_spf : worker_task → FuncId → Bool × worker_task) (w : World)
    (h1 : w.task.from_addr ≠ INADDR_NONE) (h2 : w.task.from_addr ≠ INADDR_ANY)
    (hr : (resolve_spf w.task FuncId.spf_plugin_callback).1 = false) :
    spf_symbol_callback resolve_spf w =
      { task := (resolve_spf w.task FuncId.spf_plugin_callback).2,
        calls := w.calls ++ [Call.resolve_spf FuncId.spf_plugin_callback,
          Call.msg_info ("cannot make spf request for [" ++
            (resolve_spf w.task FuncId.spf_plugin_callback).2.message_id ++ "]")] } ∧
    ((resolve_spf w.task FuncId.spf_plugin_callback).2 = w.task →
      (spf_symbol_callback resolve_spf w).task = w.task) := by
  have hEq : spf_symbol_callback resolve_spf w =
      { task := (resolve_spf w.task FuncId.spf_plugin_callback).2,
        calls := w.calls ++ [Call.resolve_spf FuncId.spf_plugin_callback,
          Call.msg_info ("cannot make spf request for [" ++
            (resolve_spf w.task FuncId.spf_plugin_callback).2.message_id ++ "]")] } := by
    simp [spf_symbol_callback, h1, h2, hr]
  refine ⟨hEq, ?_⟩
  intro h
  rw [hEq]
  exact h

/-- C4 at a concrete input: the sample task, `resolve_spf` failing. -/
theorem filter_failure_contributes_nothing_witness :
    sample_task.from_addr ≠ INADDR_NONE ∧ sample_task.from_addr ≠ INADDR_ANY ∧
    (sample_resolve_fails sample_task FuncId.spf_plugin_callback).1 = false ∧
    (spf_symbol_callback sample_resolve_fails { task := sample_task, calls := [] }).task
      = sample_task :=
  ⟨by decide, by decide, rfl,
    (filter_failure_contributes_nothing sample_resolve_fails
      { task := sample_task, calls := [] } (by decide) (by decide) rfl).2 rfl⟩

/-- C10 (unknown sender address). If `from_addr` is `INADDR_NONE` or
`INADDR_ANY`, `spf_symbol_callback` returns the world as it was: no call is
made (no `resolve_spf`, no `insert_result`) and the task, latch included, is
unchanged. For every other sender address the calls it adds start with one
`resolve_spf` call whose completion is `spf_plugin_callback`, followed only by
`msg_info` log lines, so `resolve_spf` is called exactly once. -/
theorem skip_unknown_sender
    (resolve_spf : worker_task → FuncId → Bool × worker_task) (w : World) :
    (w.task.from_addr = INADDR_NONE ∨ w.task.from_addr = INADDR_ANY →
      spf_symbol_callback resolve_spf w = w) ∧
    (w.task.from_addr ≠ INADDR_NONE ∧ w.task.from_addr ≠ INADDR_ANY →
      ∃ l, (spf_symbol_callback resolve_spf w).calls =
          w.calls ++ Call.resolve_spf FuncId.spf_plugin_callback :: l ∧
        (∀ c ∈ l, ∃ text, c = Call.msg_info text) ∧
        (spf_symbol_callback resolve_spf w).task =
          (resolve_spf w.task FuncId.spf_plugin_callback).2) := by
  constructor
  · intro h
    unfold spf_symbol_callback
    rcases h with h | h <;> simp [h]
  · rintro ⟨h1, h2⟩
    by_cases hr : (resolve_spf w.task FuncId.spf_plugin_callback).1 = false
    · exact ⟨[Call.msg_info ("cannot make spf request for [" ++
          (resolve_spf w.task FuncId.spf_plugin_callback).2.message_id ++ "]")],
        by simp [spf_symbol_callback, h1, h2, hr], by simp, by simp [spf_symbol_callback, h1, h2, hr]⟩
    · exact ⟨[], by simp [spf_symbol_callback, h1, h2, hr], by simp,
        by simp [spf_symbol_callback, h1, h2, hr]⟩

/-- C10 at a concrete input: a task whose sender address is `INADDR_ANY`. -/
theorem skip_unknown_sender_witness :
    ({ sample_task with from_addr := 0 } : worker_task).from_addr = INADDR_ANY ∧
    spf_symbol_callback sample_resolve_fails
        { task := { sample_task with from_addr := 0 }, calls := [] } =
      { task := { sample_task with from_addr := 0 }, calls := [] } :=
  ⟨rfl, (skip_unknown_sender sample_resolve_fails
    { task := { sample_task with from_addr := 0 }, calls := [] }).1 (Or.inr rfl)⟩

/-! ## `spf_module_config` -/

/-- C5 (symbol-name configuration). After `spf_module_config` each of the
three symbol names is the value of its own option of module "spf"
("symbol_fail", "symbol_softfail", "symbol_allow") when that option is set and
otherwise its default "R_SPF_FAIL", "R_SPF_SOFTFAIL", "R_SPF_ALLOW"; each
name depends on its own option only; the function returns TRUE. -/
theorem symbol_name_configuration (cfg : config_file) (ctx : spf_ctx) :
    (spf_module_config cfg ctx).ctx.symbol_fail =
      (cfg.get_module_opt "spf" "symbol_fail").getD "R_SPF_FAIL" ∧
    (spf_module_config cfg ctx).ctx.symbol_softfail =
      (cfg.get_module_opt "spf" "symbol_softfail").getD "R_SPF_SOFTFAIL" ∧
    (spf_module_config cfg ctx).ctx.symbol_allow =
      (cfg.get_module_opt "spf" "symbol_allow").getD "R_SPF_ALLOW" ∧
    (spf_module_config cfg ctx).res = 1 := by
  unfold spf_module_config
  cases cfg.get_module_opt "spf" "symbol_fail" <;>
    cases cfg.get_module_opt "spf" "symbol_softfail" <;>
    cases cfg.get_module_opt "spf" "symbol_allow" <;>
    simp [DEFAULT_SYMBOL_FAIL, DEFAULT_SYMBOL_SOFTFAIL, DEFAULT_SYMBOL_ALLOW, TRUE]

/-! ## Network masks -/

theorem spf_shift_eq (k : Nat) (hk : k ≤ 32) : spf_shift k = 32 - k := by
  unfold spf_shift sub_u32
  omega

theorem spf_mask_eq (plat : Platform) (k : Nat) (hk1 : 1 ≤ k) (hk : k ≤ 32) :
    spf_mask plat k = (0xFFFFFFFF <<< (32 - k)) % 2 ^ 32 := by
  have h0 : ¬ k % 2 ^ 32 = 0 := by omega
  have hlt : 32 - k < 32 := by omega
  simp only [spf_mask, h0, if_false, shl_u32, spf_shift_eq k hk, hlt, if_true, G_MAXUINT32]

/-- Bit `i` of the mask for length `k` is set exactly for `32 - k ≤ i < 32`. -/
theorem spf_mask_testBit (plat : Platform) (k i : Nat) (hk1 : 1 ≤ k) (hk : k ≤ 32) :
    (spf_mask plat k).testBit i = decide (32 - k ≤ i ∧ i < 32) := by
  rw [spf_mask_eq plat k hk1 hk, Nat.testBit_mod_two_pow, Nat.testBit_shiftLeft]
  have h : (0xFFFFFFFF : Nat) = 2 ^ 32 - 1 := by norm_num
  rw [h, Nat.testBit_two_pow_sub_one]
  by_cases h1 : i < 32 <;> by_cases h2 : 32 - k ≤ i <;> simp [h1, h2]
  omega

theorem testBit_high_false (x i : Nat) (hx : x < 2 ^ 32) (hi : 32 ≤ i) :
    x.testBit i = false :=
  Nat.testBit_lt_two_pow (lt_of_lt_of_le hx (Nat.pow_le_pow_right (by norm_num) hi))

/-- The masked comparison is equality of the bits `32 - k ≤ i < 32`. -/
theorem masked_eq_iff (plat : Platform) (s a k : Nat) (hk1 : 1 ≤ k) (hk : k ≤ 32) :
    s &&& spf_mask plat k = a &&& spf_mask plat k ↔
      ∀ i : Nat, 32 - k ≤ i → i < 32 → s.testBit i = a.testBit i := by
  constructor
  · intro h i h1 h2
    have hb := congrArg (fun x => Nat.testBit x i) h
    simpa [Nat.testBit_and, spf_mask_testBit plat k i hk1 hk, h1, h2] using hb
  · intro h
    apply Nat.eq_of_testBit_eq
    intro i
    rw [Nat.testBit_and, Nat.testBit_and, spf_mask_testBit plat k i hk1 hk]
    by_cases hi : 32 - k ≤ i ∧ i < 32
    · rw [h i hi.1 hi.2]
    · rw [decide_eq_false hi, Bool.and_false, Bool.and_false]

/-- For 32-bit words, equality of the bits `j ≤ i < 32` is equality after a
right shift by `j`. -/
theorem high_bits_iff_shift (s a j : Nat) (hs : s < 2 ^ 32) (ha : a < 2 ^ 32) :
    (∀ i : Nat, j ≤ i → i < 32 → s.testBit i = a.testBit i) ↔ s >>> j = a >>> j := by
  constructor
  · intro h
    apply Nat.eq_of_testBit_eq
    intro i
    rw [Nat.testBit_shiftRight, Nat.testBit_shiftRight]
    by_cases hi : j + i < 32
    · exact h (j + i) (Nat.le_add_right j i) hi
    · rw [testBit_high_false s _ hs (by omega), testBit_high_false a _ ha (by omega)]
  · intro h i h1 _
    have hb := congrArg (fun x => Nat.testBit x (i - j)) h
    simp only [Nat.testBit_shiftRight] at hb
    have hij : j + (i - j) = i := by omega
    rwa [hij] at hb

/-- C9 (network-mask matching). For 32-bit words `s` (sender address, host
byte order) and `a` (entry address) and a mask length `1 ≤ k ≤ 32`: the
shift count of line 131 is `32 - k`, which is below 32; the mask is
`(0xFFFFFFFF << (32 - k)) mod 2^32`; the test of line 133 succeeds exactly when
`s` and `a` agree on their `k` most significant bits (bits `32 - k` to `31`),
that is when `s >> (32 - k) = a >> (32 - k)`; for `k = 32` this is `s = a`.
For `k = 0` the mask is 0 and every sender address matches every entry; the
shift count would be 32 there. -/
theorem network_mask_matching (plat : Platform) (s a k : Nat) (mech : spf_mech) (str : String)
    (hs : s < 2 ^ 32) (ha : a < 2 ^ 32) (hk1 : 1 ≤ k) (hk : k ≤ 32) :
    spf_shift k = 32 - k ∧ spf_shift k < 32 ∧
    spf_mask plat k = (0xFFFFFFFF <<< (32 - k)) % 2 ^ 32 ∧
    (spf_match plat s { addr := a, mask := k, mech := mech, spf_string := str } = true ↔
      ∀ i : Nat, 32 - k ≤ i → i < 32 → s.testBit i = a.testBit i) ∧
    (spf_match plat s { addr := a, mask := k, mech := mech, spf_string := str } = true ↔
      s >>> (32 - k) = a >>> (32 - k)) ∧
    (k = 32 →
      (spf_match plat s { addr := a, mask := k, mech := mech, spf_string := str } = true ↔
        s = a)) ∧
    spf_mask plat 0 = 0 ∧ spf_shift 0 = 32 ∧
    (∀ s1 a1 : Nat,
      spf_match plat s1 { addr := a1, mask := 0, mech := mech, spf_string := str } = true) := by
  have hbits : spf_match plat s { addr := a, mask := k, mech := mech, spf_string := str } = true ↔
      ∀ i : Nat, 32 - k ≤ i → i < 32 → s.testBit i = a.testBit i := by
    simp only [spf_match, decide_eq_true_eq]
    exact masked_eq_iff plat s a k hk1 hk
  have hshift := hbits.trans (high_bits_iff_shift s a (32 - k) hs ha)
  refine ⟨spf_shift_eq k hk, by rw [spf_shift_eq k hk]; omega, spf_mask_eq plat k hk1 hk,
    hbits, hshift, ?_, by simp [spf_mask], by simp [spf_shift, sub_u32], ?_⟩
  · intro h32
    subst h32
    simpa using hshift
  · intro s1 a1
    simp [spf_match, spf_mask]

/-- C9 at a concrete input: 192.0.2.1 against 192.0.2.0/24. -/
theorem network_mask_matching_witness :
    (0xC0000201 : Nat) < 2 ^ 32 ∧ (0xC0000200 : Nat) < 2 ^ 32 ∧ 1 ≤ 24 ∧ 24 ≤ 32 ∧
    (spf_match sample_plat 0xC0000201
        { addr := 0xC0000200, mask := 24, mech := spf_mech.SPF_FAIL, spf_string := "" } = true ↔
      0xC0000201 >>> (32 - 24) = 0xC0000200 >>> (32 - 24)) :=
  ⟨by decide, by decide, by decide, by decide,
    (network_mask_matching sample_plat 0xC0000201 0xC0000200 24 spf_mech.SPF_FAIL ""
      (by decide) (by decide) (by decide) (by decide)).2.2.2.2.1⟩

end Rspamd
